import Mathlib

/-!
A shallow embedding of the srclient schema-registry client (Go package
`srclient`) and proofs about its caching, validation, credential and
request-dispatch behaviour.

Modelling decisions, shared by all definitions below:

* The client is sequential state: each operation takes the client record and
  returns the result, the updated client record and the list of HTTP requests
  it handed to the transport (`Env.doRequest`), in order.  Go mutexes guard
  fields that are plain record fields here.
* JSON bodies are modelled structurally: a `RespBody` constructor stands for a
  body that `json.Unmarshal` decodes into exactly that shape, and `RespBody.raw`
  for a body that decodes into none of them.  Request bodies are the marshalled
  structs themselves.
* Go maps are association lists; insertion prepends, lookup takes the first
  match, which is observationally the same as overwrite-plus-lookup.
* `context.Context` is reduced to its one observable here: whether it has been
  canceled.  `semaphore.Weighted.Acquire` in a sequential model always finds a
  free slot, so its only observable behaviour is the context check.
-/

namespace Srclient

/-- Go `type SchemaType string`. -/
abbrev SchemaType := String

def Protobuf : SchemaType := "PROTOBUF"

def Avro : SchemaType := "AVRO"

def Json : SchemaType := "JSON"

/-- `SchemaType.String()`: Avro is the default and is rendered as the empty
string so that `omitempty` drops it from the request JSON. -/
def schemaTypeString (s : SchemaType) : String :=
  if s = Avro then "" else s

/-- Go struct `Reference`. -/
structure Reference where
  name : String
  subject : String
  version : Int
deriving Repr, DecidableEq

/-- Opaque handle standing for a `*goavro.Codec` compiled from schema text. -/
structure Codec where
  source : String
deriving Repr, DecidableEq

/-- Opaque handle standing for a compiled `*jsonschema.Schema`. -/
structure JsonSchemaHandle where
  source : String
deriving Repr, DecidableEq

/-- Go struct `Schema`. -/
structure Schema where
  id : Int
  schema : String
  schemaType : Option SchemaType
  version : Int
  references : List Reference
  codec : Option Codec
  jsonSchema : Option JsonSchemaHandle
deriving Repr, DecidableEq

/-- `context.Context`, reduced to its cancellation state. -/
structure Ctx where
  canceled : Bool
deriving Repr, DecidableEq

/-- `context.Background()`: never canceled. -/
def Ctx.background : Ctx := ⟨false⟩

/-- The `TokenProvider` interface: `ObtainToken(ctx) (string, error)`. -/
structure TokenProvider where
  obtainToken : Ctx → Except String String

/-- Go struct `credentials`: either username AND password, or a bearer token. -/
structure credentials where
  username : String
  password : String
  bearerToken : Option TokenProvider

/-- Go struct `SchemaRegistryClient` (the mutable fields; locks are implicit in
the sequential model, and the semaphore is modelled at the dispatch step). -/
structure SchemaRegistryClient where
  schemaRegistryURL : String
  credentials : Option credentials
  cachingEnabled : Bool
  cacheLatest : Bool
  codecCreationEnabled : Bool
  idSchemaCache : List (Int × Schema)
  subjectSchemaCache : List (String × Schema)

/-- Go struct `schemaRequest` (what register/lookup/compatibility POST). -/
structure schemaRequest where
  Schema : String
  SchemaType : String
  References : List Reference
deriving Repr, DecidableEq

/-- Go struct `schemaResponse`. -/
structure schemaResponse where
  Subject : String
  Version : Int
  Schema : String
  SchemaType : Option SchemaType
  ID : Int
  References : List Reference
deriving Repr, DecidableEq

/-- The Authorization header attached to an outgoing request: either
`req.SetBasicAuth(u, p)` or a `Bearer` token header. -/
inductive AuthHeader where
  | basic (username password : String)
  | bearer (token : String)
deriving Repr, DecidableEq

/-- A marshalled request body. -/
inductive ReqBody where
  | schemaReq (r : schemaRequest)
  | configChangeReq (compatibility : String)
deriving Repr, DecidableEq

/-- A response body, by the shape `json.Unmarshal` decodes it into;
`raw` stands for a body that decodes into none of the known shapes. -/
inductive RespBody where
  | schemaResp (r : schemaResponse)
  | compatResp (isCompatible : Bool)
  | versionsResp (versions : List Int)
  | errorResp (errorCode : Int) (message : String)
  | raw (body : String)
deriving Repr, DecidableEq

/-- An HTTP response as seen by `httpRequest`. -/
structure Response where
  statusCode : Int
  status : String
  body : RespBody
deriving Repr, DecidableEq

/-- An HTTP request as handed to the transport. -/
structure Request where
  method : String
  url : String
  body : Option ReqBody
  auth : Option AuthHeader
  contentType : String
deriving Repr, DecidableEq

/-- The environment: the HTTP transport (`http.Client.Do`, which can fail with
a transport error) and the external Avro codec compiler (`goavro.NewCodec`). -/
structure Env where
  doRequest : Request → Except String Response
  newCodec : String → Except String Codec

/-- The error values the client can return. -/
inductive SrError where
  | registryError (code : Int) (message : String)
  | errorf (message : String)
  | transport (message : String)
  | ctxCanceled
  | tokenError (message : String)
  | unmarshalError (message : String)
  | codecError (message : String)
deriving Repr, DecidableEq

/-- The registry content type constant. -/
def contentType : String := "application/vnd.schemaregistry.v1+json"

/-- `fmt.Sprintf(schemaByID, id)`. -/
def schemaByID (schemaID : Int) : String := "/schemas/ids/" ++ toString schemaID

/-- `fmt.Sprintf(subjectBySubject, subject)`. -/
def subjectBySubject (subject : String) : String := "/subjects/" ++ subject

/-- `fmt.Sprintf(subjectVersions, subject)`. -/
def subjectVersions (subject : String) : String := "/subjects/" ++ subject ++ "/versions"

/-- `fmt.Sprintf(subjectByVersion, subject, version)`. -/
def subjectByVersion (subject version : String) : String :=
  "/subjects/" ++ subject ++ "/versions/" ++ version

/-- `cacheKey(subject, version) = fmt.Sprintf("%s-%s", subject, version)`. -/
def cacheKey (subject version : String) : String := subject ++ "-" ++ version

/-- Go map read `m[k]` (nil for absent). -/
def mapLookup {α β : Type} [DecidableEq α] : List (α × β) → α → Option β
  | [], _ => none
  | (k, v) :: rest, key => if k = key then some v else mapLookup rest key

/-- Go map write `m[k] = v`: prepending shadows any older binding for the
lookup above, which is observationally the overwrite a Go map performs. -/
def mapInsert {α β : Type} (m : List (α × β)) (key : α) (v : β) : List (α × β) :=
  (key, v) :: m

/-- The UTF-8 bytes of a character (as `Nat`s below 256). -/
def utf8Bytes (c : Char) : List Nat :=
  let n := c.toNat
  if n < 0x80 then [n]
  else if n < 0x800 then
    [0xC0 ||| (n >>> 6), 0x80 ||| (n &&& 0x3F)]
  else if n < 0x10000 then
    [0xE0 ||| (n >>> 12), 0x80 ||| ((n >>> 6) &&& 0x3F), 0x80 ||| (n &&& 0x3F)]
  else
    [0xF0 ||| (n >>> 18), 0x80 ||| ((n >>> 12) &&& 0x3F),
     0x80 ||| ((n >>> 6) &&& 0x3F), 0x80 ||| (n &&& 0x3F)]

/-- Go `url.QueryEscape` per-byte test: alphanumerics and `-_.~` stay. -/
def queryByteUnescaped (b : Nat) : Bool :=
  (0x41 ≤ b && b ≤ 0x5A) || (0x61 ≤ b && b ≤ 0x7A) || (0x30 ≤ b && b ≤ 0x39) ||
    b = 0x2D || b = 0x5F || b = 0x2E || b = 0x7E

/-- Upper-case hex digit for a value below 16. -/
def hexUpper (n : Nat) : Char :=
  if n < 10 then Char.ofNat (0x30 + n) else Char.ofNat (0x37 + n)

/-- One byte of `url.QueryEscape` output: space becomes `+`, unreserved bytes
pass through, everything else becomes `%XX`. -/
def escapeByte (b : Nat) : List Char :=
  if b = 0x20 then ['+']
  else if queryByteUnescaped b then [Char.ofNat b]
  else ['%', hexUpper (b / 16), hexUpper (b % 16)]

/-- Go `url.QueryEscape`. -/
def queryEscape (s : String) : String :=
  String.mk (s.data.flatMap fun c => (utf8Bytes c).flatMap escapeByte)

/-- The regex `\r?\n` replaced by a single space, over the character list:
`regexp.MustCompile(`+"..."+`).ReplaceAllString(schema, " ")`. -/
def replaceLineEndingsAux : List Char → List Char
  | [] => []
  | '\r' :: '\n' :: rest => ' ' :: replaceLineEndingsAux rest
  | '\n' :: rest => ' ' :: replaceLineEndingsAux rest
  | c :: rest => c :: replaceLineEndingsAux rest

/-- The Avro/Json schema-text normalization performed by CreateSchema and
LookupSchema: every `\r\n` or `\n` becomes one space. -/
def replaceLineEndings (s : String) : String :=
  String.mk (replaceLineEndingsAux s.data)

/-- `createError(resp)`: a body decoding into `{error_code, message}` yields
the structured `Error`; otherwise `fmt.Errorf("%s", resp.Status)`. -/
def createError (resp : Response) : SrError :=
  match resp.body with
  | .errorResp code msg => .registryError code msg
  | _ => .errorf resp.status

/-- The auth-resolution block of `httpRequest` (lines guarded by `credsLock`):
basic auth wins when both username and password are non-empty, else the token
provider is invoked with the caller's context, else no auth header. -/
def resolveAuth (ctx : Ctx) (creds : Option credentials) :
    Except SrError (Option AuthHeader) :=
  match creds with
  | none => .ok none
  | some c =>
    if 0 < c.username.length && 0 < c.password.length then
      .ok (some (.basic c.username c.password))
    else
      match c.bearerToken with
      | some tp =>
        match tp.obtainToken ctx with
        | .ok token => .ok (some (.bearer token))
        | .error e => .error (.tokenError e)
      | none => .ok none

/-- `semaphore.Weighted.Acquire(ctx, 1)` in the sequential model: a slot is
always free, so the only observable behaviour is the context check — a
canceled context yields its error, otherwise acquisition succeeds. -/
def semAcquire (ctx : Ctx) : Except SrError Unit :=
  if ctx.canceled then .error .ctxCanceled else .ok ()

/-- The context the source hands to `sem.Acquire` inside `httpRequest`:
`context.Background()`, not the caller's `ctx`. -/
def gateAcquireContext (_callerCtx : Ctx) : Ctx := Ctx.background

/-- `httpRequest(ctx, method, uri, payload)`: build the request, resolve auth,
acquire the gate (with the background context, error discarded), dispatch, and
map non-2xx responses through `createError`.  The second component is the list
of requests handed to the transport. -/
def httpRequest (env : Env) (ctx : Ctx) (client : SchemaRegistryClient)
    (method uri : String) (payload : Option ReqBody) :
    Except SrError RespBody × List Request :=
  match resolveAuth ctx client.credentials with
  | .error e => (.error e, [])
  | .ok auth =>
    let req : Request :=
      { method := method, url := client.schemaRegistryURL ++ uri,
        body := payload, auth := auth, contentType := contentType }
    -- the source discards the result of sem.Acquire(context.Background(), 1)
    let _ := semAcquire (gateAcquireContext ctx)
    if ctx.canceled then (.error .ctxCanceled, [])
    else
      match env.doRequest req with
      | .error e => (.error (.transport e), [req])
      | .ok resp =>
        if resp.statusCode < 200 ∨ 299 < resp.statusCode then
          (.error (createError resp), [req])
        else (.ok resp.body, [req])

/-- `json.Unmarshal` into `schemaResponse`, under the body abstraction. -/
def unmarshalSchemaResponse : RespBody → Except SrError schemaResponse
  | .schemaResp r => .ok r
  | _ => .error (.unmarshalError "cannot unmarshal body into schemaResponse")

/-- `json.Unmarshal` into `isCompatibleResponse`, under the body abstraction. -/
def unmarshalIsCompatibleResponse : RespBody → Except SrError Bool
  | .compatResp b => .ok b
  | _ => .error (.unmarshalError "cannot unmarshal body into isCompatibleResponse")

/-- `CreateSchemaRegistryClientWithOptions` field initialisation: caching on,
latest-caching off, codec creation off, both caches empty, no credentials. -/
def CreateSchemaRegistryClient (schemaRegistryURL : String) : SchemaRegistryClient :=
  { schemaRegistryURL := schemaRegistryURL, credentials := none,
    cachingEnabled := true, cacheLatest := false, codecCreationEnabled := false,
    idSchemaCache := [], subjectSchemaCache := [] }

/-- `ResetCache()`: both cache maps are replaced by fresh empty maps. -/
def ResetCache (client : SchemaRegistryClient) : SchemaRegistryClient :=
  { client with idSchemaCache := [], subjectSchemaCache := [] }

/-- `SetCredentials(username, password)`: only a non-empty pair replaces the
credential slot (with no bearer token); otherwise nothing happens. -/
def SetCredentials (client : SchemaRegistryClient) (username password : String) :
    SchemaRegistryClient :=
  if 0 < username.length && 0 < password.length then
    { client with
      credentials := some ({ username := username, password := password, bearerToken := none } : credentials) }
  else client

/-- `SetBearerToken(token)`: only a non-nil provider replaces the credential
slot (with empty username/password); otherwise nothing happens. -/
def SetBearerToken (client : SchemaRegistryClient) (token : Option TokenProvider) :
    SchemaRegistryClient :=
  match token with
  | some tok =>
    { client with
      credentials := some ({ username := "", password := "", bearerToken := some tok } : credentials) }
  | none => client

/-- `CachingEnabled(value)`. -/
def CachingEnabled (client : SchemaRegistryClient) (value : Bool) : SchemaRegistryClient :=
  { client with cachingEnabled := value }

/-- `CacheLatest(value)`. -/
def CacheLatest (client : SchemaRegistryClient) (value : Bool) : SchemaRegistryClient :=
  { client with cacheLatest := value }

/-- `CodecCreationEnabled(value)`. -/
def CodecCreationEnabled (client : SchemaRegistryClient) (value : Bool) :
    SchemaRegistryClient :=
  { client with codecCreationEnabled := value }

/-- `GetSchema(ctx, schemaID)`: cache-first by id when caching is enabled; on a
miss GET `/schemas/ids/{id}`, decode, optionally compile a codec, store back
into the id cache when caching is enabled. -/
def GetSchema (env : Env) (ctx : Ctx) (client : SchemaRegistryClient)
    (schemaID : Int) :
    Except SrError Schema × SchemaRegistryClient × List Request :=
  match (if client.cachingEnabled then mapLookup client.idSchemaCache schemaID else none) with
  | some cachedSchema => (.ok cachedSchema, client, [])
  | none =>
    match httpRequest env ctx client "GET" (schemaByID schemaID) none with
    | (.error e, reqs) => (.error e, client, reqs)
    | (.ok respBody, reqs) =>
      match unmarshalSchemaResponse respBody with
      | .error e => (.error e, client, reqs)
      | .ok schemaResp =>
        match (if client.codecCreationEnabled then
                 (env.newCodec schemaResp.Schema).map some
               else Except.ok none) with
        | .error e => (.error (.codecError e), client, reqs)
        | .ok codec =>
          let schema : Schema :=
            { id := schemaID, schema := schemaResp.Schema,
              version := schemaResp.Version, schemaType := schemaResp.SchemaType,
              references := schemaResp.References, codec := codec, jsonSchema := none }
          (.ok schema,
           (if client.cachingEnabled then
              { client with idSchemaCache := mapInsert client.idSchemaCache schemaID schema }
            else client),
           reqs)

/-- `getVersion(ctx, subject, version)`: cache-first on the composite key —
but for the `"latest"` token only when `cacheLatest` is set; on a miss GET
`/subjects/{subject}/versions/{version}`, decode, optionally compile a codec,
store into the subject cache (same gating) and always into the id cache when
caching is enabled. -/
def getVersion (env : Env) (ctx : Ctx) (client : SchemaRegistryClient)
    (subject version : String) :
    Except SrError Schema × SchemaRegistryClient × List Request :=
  match (if client.cachingEnabled &&
            (version != "latest" || (version == "latest" && client.cacheLatest)) then
           mapLookup client.subjectSchemaCache (cacheKey subject version)
         else none) with
  | some cachedResult => (.ok cachedResult, client, [])
  | none =>
    match httpRequest env ctx client "GET"
        (subjectByVersion (queryEscape subject) version) none with
    | (.error e, reqs) => (.error e, client, reqs)
    | (.ok respBody, reqs) =>
      match unmarshalSchemaResponse respBody with
      | .error e => (.error e, client, reqs)
      | .ok schemaResp =>
        match (if client.codecCreationEnabled then
                 (env.newCodec schemaResp.Schema).map some
               else Except.ok none) with
        | .error e => (.error (.codecError e), client, reqs)
        | .ok codec =>
          let schema : Schema :=
            { id := schemaResp.ID, schema := schemaResp.Schema,
              schemaType := schemaResp.SchemaType, version := schemaResp.Version,
              references := schemaResp.References, codec := codec, jsonSchema := none }
          (.ok schema,
           (if client.cachingEnabled then
              { client with
                subjectSchemaCache :=
                  (if version != "latest" || (version == "latest" && client.cacheLatest) then
                     mapInsert client.subjectSchemaCache (cacheKey subject version) schema
                   else client.subjectSchemaCache),
                idSchemaCache := mapInsert client.idSchemaCache schema.id schema }
            else client),
           reqs)

/-- `GetLatestSchema(ctx, subject)`. -/
def GetLatestSchema (env : Env) (ctx : Ctx) (client : SchemaRegistryClient)
    (subject : String) :
    Except SrError Schema × SchemaRegistryClient × List Request :=
  getVersion env ctx client subject "latest"

/-- `GetSchemaByVersion(ctx, subject, version)`. -/
def GetSchemaByVersion (env : Env) (ctx : Ctx) (client : SchemaRegistryClient)
    (subject : String) (version : Int) :
    Except SrError Schema × SchemaRegistryClient × List Request :=
  getVersion env ctx client subject (toString version)

/-- The body of `CreateSchema` after the schema-type switch: POST the schema
to `/subjects/{subject}/versions`, decode the id, fetch the full schema back
through `GetSchema`, and update both caches when caching is enabled. -/
def createSchemaAfterSwitch (env : Env) (ctx : Ctx) (client : SchemaRegistryClient)
    (subject schema : String) (schemaType : SchemaType) (references : List Reference) :
    Except SrError Schema × SchemaRegistryClient × List Request :=
  match httpRequest env ctx client "POST" (subjectVersions (queryEscape subject))
      (some (.schemaReq { Schema := schema, SchemaType := schemaTypeString schemaType,
                          References := references })) with
  | (.error e, reqs) => (.error e, client, reqs)
  | (.ok respBody, reqs) =>
    match unmarshalSchemaResponse respBody with
    | .error e => (.error e, client, reqs)
    | .ok schemaResp =>
      match GetSchema env ctx client schemaResp.ID with
      | (.error e, client', reqs') => (.error e, client', reqs ++ reqs')
      | (.ok newSchema, client', reqs') =>
        (.ok newSchema,
         (if client'.cachingEnabled then
            { client' with
              subjectSchemaCache :=
                mapInsert client'.subjectSchemaCache
                  (cacheKey subject (toString newSchema.version)) newSchema,
              idSchemaCache := mapInsert client'.idSchemaCache newSchema.id newSchema }
          else client'),
         reqs ++ reqs')

/-- `CreateSchema(ctx, subject, schema, schemaType, references...)`: Avro/Json
text is normalized, Protobuf passes through, any other type is rejected before
any request. -/
def CreateSchema (env : Env) (ctx : Ctx) (client : SchemaRegistryClient)
    (subject schema : String) (schemaType : SchemaType) (references : List Reference) :
    Except SrError Schema × SchemaRegistryClient × List Request :=
  if schemaType = Avro ∨ schemaType = Json then
    createSchemaAfterSwitch env ctx client subject (replaceLineEndings schema)
      schemaType references
  else if schemaType = Protobuf then
    createSchemaAfterSwitch env ctx client subject schema schemaType references
  else
    (.error (.errorf "invalid schema type. valid values are Avro, Json, or Protobuf"),
     client, [])

/-- The body of `LookupSchema` after the schema-type switch: POST the schema to
`/subjects/{subject}`, decode the full schema directly from the response
(codec only for Avro with codec creation on), update both caches. -/
def lookupSchemaAfterSwitch (env : Env) (ctx : Ctx) (client : SchemaRegistryClient)
    (subject schema : String) (schemaType : SchemaType) (references : List Reference) :
    Except SrError Schema × SchemaRegistryClient × List Request :=
  match httpRequest env ctx client "POST" (subjectBySubject (queryEscape subject))
      (some (.schemaReq { Schema := schema, SchemaType := schemaTypeString schemaType,
                          References := references })) with
  | (.error e, reqs) => (.error e, client, reqs)
  | (.ok respBody, reqs) =>
    match unmarshalSchemaResponse respBody with
    | .error e => (.error e, client, reqs)
    | .ok schemaResp =>
      match (if client.codecCreationEnabled && schemaType == Avro then
               (env.newCodec schemaResp.Schema).map some
             else Except.ok none) with
      | .error e => (.error (.codecError e), client, reqs)
      | .ok codec =>
        let gotSchema : Schema :=
          { id := schemaResp.ID, schema := schemaResp.Schema,
            schemaType := schemaResp.SchemaType, version := schemaResp.Version,
            references := schemaResp.References, codec := codec, jsonSchema := none }
        (.ok gotSchema,
         (if client.cachingEnabled then
            { client with
              subjectSchemaCache :=
                mapInsert client.subjectSchemaCache
                  (cacheKey subject (toString gotSchema.version)) gotSchema,
              idSchemaCache := mapInsert client.idSchemaCache gotSchema.id gotSchema }
          else client),
         reqs)

/-- `LookupSchema(ctx, subject, schema, schemaType, references...)`: same
switch as `CreateSchema`, then an existence-check POST. -/
def LookupSchema (env : Env) (ctx : Ctx) (client : SchemaRegistryClient)
    (subject schema : String) (schemaType : SchemaType) (references : List Reference) :
    Except SrError Schema × SchemaRegistryClient × List Request :=
  if schemaType = Avro ∨ schemaType = Json then
    lookupSchemaAfterSwitch env ctx client subject (replaceLineEndings schema)
      schemaType references
  else if schemaType = Protobuf then
    lookupSchemaAfterSwitch env ctx client subject schema schemaType references
  else
    (.error (.errorf "invalid schema type. valid values are Avro, Json, or Protobuf"),
     client, [])

/-- `IsSchemaCompatible(ctx, subject, schema, version, schemaType, ...)`:
POST to `/compatibility/subjects/{subject}/versions/{version}` (no schema-type
switch, no caching) and decode the boolean flag. -/
def IsSchemaCompatible (env : Env) (ctx : Ctx) (client : SchemaRegistryClient)
    (subject schema version : String) (schemaType : SchemaType)
    (references : List Reference) :
    Except SrError Bool × List Request :=
  match httpRequest env ctx client "POST"
      ("/compatibility/subjects/" ++ subject ++ "/versions/" ++ version)
      (some (.schemaReq { Schema := schema, SchemaType := schemaTypeString schemaType,
                          References := references })) with
  | (.error e, reqs) => (.error e, reqs)
  | (.ok respBody, reqs) =>
    match unmarshalIsCompatibleResponse respBody with
    | .error e => (.error e, reqs)
    | .ok isCompatible => (.ok isCompatible, reqs)

/-- `DeleteSubject(ctx, subject, permanent)`: DELETE the subject; on success,
and only when `permanent` is set, issue the second DELETE with
`?permanent=true` and return its outcome. -/
def DeleteSubject (env : Env) (ctx : Ctx) (client : SchemaRegistryClient)
    (subject : String) (permanent : Bool) :
    Except SrError Unit × List Request :=
  match httpRequest env ctx client "DELETE" ("/subjects/" ++ subject) none with
  | (.error e, reqs) => (.error e, reqs)
  | (.ok _, reqs) =>
    if !permanent then (.ok (), reqs)
    else
      match httpRequest env ctx client "DELETE"
          ("/subjects/" ++ subject ++ "?permanent=true") none with
      | (.error e, reqs2) => (.error e, reqs ++ reqs2)
      | (.ok _, reqs2) => (.ok (), reqs ++ reqs2)

/-- `DeleteSubjectByVersion(ctx, subject, version, permanent)`: same two-step
protocol for one version. -/
def DeleteSubjectByVersion (env : Env) (ctx : Ctx) (client : SchemaRegistryClient)
    (subject : String) (version : Int) (permanent : Bool) :
    Except SrError Unit × List Request :=
  match httpRequest env ctx client "DELETE"
      (subjectByVersion subject (toString version)) none with
  | (.error e, reqs) => (.error e, reqs)
  | (.ok _, reqs) =>
    if !permanent then (.ok (), reqs)
    else
      match httpRequest env ctx client "DELETE"
          (subjectByVersion subject (toString version) ++ "?permanent=true") none with
      | (.error e, reqs2) => (.error e, reqs ++ reqs2)
      | (.ok _, reqs2) => (.ok (), reqs ++ reqs2)

/-! ## General lemmas about the dispatcher and the cache maps -/

/-- The request `httpRequest` builds for a method/uri/payload/auth header. -/
def builtRequest (client : SchemaRegistryClient) (method uri : String)
    (payload : Option ReqBody) (a : Option AuthHeader) : Request :=
  { method := method, url := client.schemaRegistryURL ++ uri,
    body := payload, auth := a, contentType := contentType }

theorem httpRequest_requests (env : Env) (ctx : Ctx) (client : SchemaRegistryClient)
    (method uri : String) (payload : Option ReqBody) (a : Option AuthHeader)
    (hA : resolveAuth ctx client.credentials = Except.ok a)
    (hc : ctx.canceled = false) :
    (httpRequest env ctx client method uri payload).2 =
      [builtRequest client method uri payload a] := by
  unfold httpRequest
  rw [hA]
  simp only [hc, Bool.false_eq_true, if_false]
  split
  · rfl
  · split
    · rfl
    · rfl

theorem httpRequest_ok_inv (env : Env) (ctx : Ctx) (client : SchemaRegistryClient)
    (method uri : String) (payload : Option ReqBody) (b : RespBody)
    (h : (httpRequest env ctx client method uri payload).1 = Except.ok b) :
    ∃ a, resolveAuth ctx client.credentials = Except.ok a ∧ ctx.canceled = false := by
  unfold httpRequest at h
  rcases hA : resolveAuth ctx client.credentials with e | a
  · rw [hA] at h
    simp at h
  · rw [hA] at h
    refine ⟨a, rfl, ?_⟩
    by_cases hcc : ctx.canceled
    · simp [hcc] at h
    · simpa using hcc

theorem httpRequest_ok_requests (env : Env) (ctx : Ctx) (client : SchemaRegistryClient)
    (method uri : String) (payload : Option ReqBody) (b : RespBody)
    (h : (httpRequest env ctx client method uri payload).1 = Except.ok b) :
    (httpRequest env ctx client method uri payload).2.length = 1 := by
  obtain ⟨a, hA, hc⟩ := httpRequest_ok_inv env ctx client method uri payload b h
  rw [httpRequest_requests env ctx client method uri payload a hA hc]
  rfl

theorem httpRequest_authError (env : Env) (ctx : Ctx) (client : SchemaRegistryClient)
    (method uri : String) (payload : Option ReqBody) (e : SrError)
    (hA : resolveAuth ctx client.credentials = Except.error e) :
    httpRequest env ctx client method uri payload = (Except.error e, []) := by
  unfold httpRequest
  rw [hA]

theorem httpRequest_canceled (env : Env) (ctx : Ctx) (client : SchemaRegistryClient)
    (method uri : String) (payload : Option ReqBody) (a : Option AuthHeader)
    (hA : resolveAuth ctx client.credentials = Except.ok a)
    (hc : ctx.canceled = true) :
    httpRequest env ctx client method uri payload = (Except.error .ctxCanceled, []) := by
  unfold httpRequest
  rw [hA]
  simp [hc]

theorem httpRequest_mem_auth (env : Env) (ctx : Ctx) (client : SchemaRegistryClient)
    (method uri : String) (payload : Option ReqBody) (req : Request)
    (h : req ∈ (httpRequest env ctx client method uri payload).2) :
    ∃ a, resolveAuth ctx client.credentials = Except.ok a ∧ req.auth = a := by
  rcases hA : resolveAuth ctx client.credentials with e | a
  · rw [httpRequest_authError env ctx client method uri payload e hA] at h
    simp at h
  · refine ⟨a, by simp [hA], ?_⟩
    by_cases hcc : ctx.canceled
    · rw [httpRequest_canceled env ctx client method uri payload a hA hcc] at h
      simp at h
    · rw [httpRequest_requests env ctx client method uri payload a hA
        (by simpa using hcc)] at h
      simp only [List.mem_singleton] at h
      subst h
      rfl

theorem mapLookup_mapInsert_self {α β : Type} [DecidableEq α]
    (m : List (α × β)) (k : α) (v : β) :
    mapLookup (mapInsert m k v) k = some v := by
  simp [mapInsert, mapLookup]

/-! ## Claim theorems -/

/-- C1: with caching enabled, a first `GetSchema(id)` (a cache miss) performs
exactly one backend fetch; every subsequent `GetSchema(id)` performs zero
further fetches and returns an equal `Schema`, against any backend and any
context; with caching disabled, each `GetSchema(id)` call performs a backend
fetch and leaves the client unchanged, so two calls fetch twice. -/
theorem claimC1 (env : Env) (ctx : Ctx) (client : SchemaRegistryClient)
    (schemaID : Int) (a : Option AuthHeader)
    (hA : resolveAuth ctx client.credentials = Except.ok a)
    (hc : ctx.canceled = false) :
    (client.cachingEnabled = true →
      mapLookup client.idSchemaCache schemaID = none →
      ((GetSchema env ctx client schemaID).2.2.length = 1 ∧
       ∀ s, (GetSchema env ctx client schemaID).1 = Except.ok s →
         ∀ (env' : Env) (ctx' : Ctx),
           GetSchema env' ctx' (GetSchema env ctx client schemaID).2.1 schemaID =
             (Except.ok s, (GetSchema env ctx client schemaID).2.1, []))) ∧
    (client.cachingEnabled = false →
      (GetSchema env ctx client schemaID).2.2.length = 1 ∧
      (GetSchema env ctx client schemaID).2.1 = client) := by
  have hreq := httpRequest_requests env ctx client "GET" (schemaByID schemaID) none a hA hc
  constructor
  · intro hce hmiss
    constructor
    · simp only [GetSchema, hce, if_true, hmiss]
      rcases hh : httpRequest env ctx client "GET" (schemaByID schemaID) none with ⟨r, reqs⟩
      rw [hh] at hreq
      rcases r with e | respBody <;> simp only []
      · simpa using congrArg List.length hreq
      · rcases unmarshalSchemaResponse respBody with e | sr <;> simp only []
        · simpa using congrArg List.length hreq
        · rcases (if client.codecCreationEnabled then
                    (env.newCodec sr.Schema).map some
                  else Except.ok none : Except String (Option Codec)) with e | codec <;>
            simp only []
          · simpa using congrArg List.length hreq
          · simpa using congrArg List.length hreq
    · intro s hok env' ctx'
      rcases hG : GetSchema env ctx client schemaID with ⟨r, st', reqs⟩
      rw [hG] at hok
      simp only at hok
      subst hok
      simp only [GetSchema, hce, if_true, hmiss] at hG
      rcases hh : httpRequest env ctx client "GET" (schemaByID schemaID) none with ⟨r0, reqs0⟩
      rw [hh] at hG
      rcases r0 with e | respBody
      · simp only [Prod.mk.injEq] at hG
        exact absurd hG.1.symm (by simp)
      · simp only at hG
        rcases hu : unmarshalSchemaResponse respBody with e | sr <;> rw [hu] at hG
        · simp only [Prod.mk.injEq] at hG
          exact absurd hG.1.symm (by simp)
        · simp only at hG
          rcases hcod : (if client.codecCreationEnabled then
                    (env.newCodec sr.Schema).map some
                  else Except.ok none : Except String (Option Codec)) with e | codec <;>
            rw [hcod] at hG
          · simp only [Prod.mk.injEq] at hG
            exact absurd hG.1.symm (by simp)
          · simp only [hce, if_true, Prod.mk.injEq] at hG
            obtain ⟨h1, h2, h3⟩ := hG
            have hval := Except.ok.inj h1
            subst h2
            subst hval
            simp [GetSchema, mapLookup_mapInsert_self]
  · intro hdis
    simp only [GetSchema, hdis, Bool.false_eq_true, if_false]
    rcases hh : httpRequest env ctx client "GET" (schemaByID schemaID) none with ⟨r, reqs⟩
    rw [hh] at hreq
    rcases r with e | respBody <;> simp only []
    · exact ⟨by simpa using congrArg List.length hreq, by trivial⟩
    · rcases unmarshalSchemaResponse respBody with e | sr <;> simp only []
      · exact ⟨by simpa using congrArg List.length hreq, by trivial⟩
      · rcases (if client.codecCreationEnabled then
                  (env.newCodec sr.Schema).map some
                else Except.ok none : Except String (Option Codec)) with e | codec <;>
          simp only []
        · exact ⟨by simpa using congrArg List.length hreq, by trivial⟩
        · exact ⟨by simpa using congrArg List.length hreq,
                 by simp [hdis]⟩

/-! ## Concrete fixtures used by the witnesses and counterexamples -/

/-- A fixed schema response body used by the witness backends. -/
def respW : schemaResponse :=
  { Subject := "test-subject", Version := 3, Schema := "sch",
    SchemaType := none, ID := 7, References := [] }

/-- The `Schema` value the client builds from `respW` when fetching id 7 with
codec creation disabled. -/
def schemaW : Schema :=
  { id := 7, schema := "sch", schemaType := none, version := 3,
    references := [], codec := none, jsonSchema := none }

/-- A backend that answers every request with a 200 schema response. -/
def envW : Env :=
  { doRequest := fun _ =>
      .ok { statusCode := 200, status := "200 OK", body := .schemaResp respW },
    newCodec := fun s => .ok ⟨s⟩ }

/-- A freshly constructed client (caching on, no credentials). -/
def clientW : SchemaRegistryClient := CreateSchemaRegistryClient "http://registry"

/-- Witness for C1 at the concrete backend `envW`: with caching on, the first
`GetSchema 7` issues one request and the second returns the same schema with
no request; with caching off, one request is issued and the client is
unchanged. -/
theorem claimC1_witness :
    ((GetSchema envW Ctx.background clientW 7).2.2.length = 1 ∧
     GetSchema envW Ctx.background (GetSchema envW Ctx.background clientW 7).2.1 7 =
       (Except.ok schemaW, (GetSchema envW Ctx.background clientW 7).2.1, [])) ∧
    ((GetSchema envW Ctx.background (CachingEnabled clientW false) 7).2.2.length = 1 ∧
     (GetSchema envW Ctx.background (CachingEnabled clientW false) 7).2.1 =
       CachingEnabled clientW false) := by
  constructor
  · have h := (claimC1 envW Ctx.background clientW 7 none rfl rfl).1 rfl rfl
    exact ⟨h.1, h.2 schemaW rfl envW Ctx.background⟩
  · exact (claimC1 envW Ctx.background (CachingEnabled clientW false) 7 none rfl rfl).2 rfl

/-- C10: `SetCredentials` with an empty username or password and
`SetBearerToken` with a nil provider are exact no-ops, and neither setter ever
touches a field other than the credential slot. -/
theorem claimC10 (client : SchemaRegistryClient) (u p : String)
    (token : Option TokenProvider) :
    (u.length = 0 ∨ p.length = 0 → SetCredentials client u p = client) ∧
    SetBearerToken client none = client ∧
    ((SetCredentials client u p).schemaRegistryURL = client.schemaRegistryURL ∧
     (SetCredentials client u p).cachingEnabled = client.cachingEnabled ∧
     (SetCredentials client u p).cacheLatest = client.cacheLatest ∧
     (SetCredentials client u p).codecCreationEnabled = client.codecCreationEnabled ∧
     (SetCredentials client u p).idSchemaCache = client.idSchemaCache ∧
     (SetCredentials client u p).subjectSchemaCache = client.subjectSchemaCache) ∧
    ((SetBearerToken client token).schemaRegistryURL = client.schemaRegistryURL ∧
     (SetBearerToken client token).cachingEnabled = client.cachingEnabled ∧
     (SetBearerToken client token).cacheLatest = client.cacheLatest ∧
     (SetBearerToken client token).codecCreationEnabled = client.codecCreationEnabled ∧
     (SetBearerToken client token).idSchemaCache = client.idSchemaCache ∧
     (SetBearerToken client token).subjectSchemaCache = client.subjectSchemaCache) := by
  refine ⟨?_, rfl, ?_, ?_⟩
  · intro h
    unfold SetCredentials
    rcases h with h | h <;> simp [h]
  · unfold SetCredentials
    split <;> simp
  · unfold SetBearerToken
    rcases token with _ | tok <;> simp

/-- Witness for C10: on the concrete client, the empty-username setter and the
nil-provider setter change nothing. -/
theorem claimC10_witness :
    SetCredentials clientW "" "pw" = clientW ∧ SetBearerToken clientW none = clientW :=
  ⟨(claimC10 clientW "" "pw" none).1 (Or.inl rfl), (claimC10 clientW "" "pw" none).2.1⟩

/-- C5: the most recent credential setter wins: after `SetCredentials` then
`SetBearerToken`, every issued request carries a Bearer header and never Basic
auth; after `SetBearerToken` then `SetCredentials`, every issued request
carries exactly the Basic header and never a Bearer one. -/
theorem claimC5 (env : Env) (ctx : Ctx) (client : SchemaRegistryClient)
    (u p : String) (tp : TokenProvider) (method uri : String) (payload : Option ReqBody)
    (hu : 0 < u.length) (hp : 0 < p.length) :
    (∀ req ∈ (httpRequest env ctx (SetBearerToken (SetCredentials client u p) (some tp))
        method uri payload).2,
      (∃ t, req.auth = some (.bearer t)) ∧ ∀ u' p', req.auth ≠ some (.basic u' p')) ∧
    (∀ req ∈ (httpRequest env ctx (SetCredentials (SetBearerToken client (some tp)) u p)
        method uri payload).2,
      req.auth = some (.basic u p) ∧ ∀ t, req.auth ≠ some (.bearer t)) := by
  constructor
  · intro req hreq
    obtain ⟨a, hA, hauth⟩ :=
      httpRequest_mem_auth env ctx _ method uri payload req hreq
    have hcreds : (SetBearerToken (SetCredentials client u p) (some tp)).credentials =
        some ({ username := "", password := "", bearerToken := some tp } : credentials) := rfl
    rw [hcreds] at hA
    simp only [resolveAuth] at hA
    rcases ht : tp.obtainToken ctx with e | t <;> rw [ht] at hA <;> simp at hA
    subst hA
    exact ⟨⟨t, hauth⟩, fun u' p' hne => by rw [hauth] at hne; simp at hne⟩
  · intro req hreq
    obtain ⟨a, hA, hauth⟩ :=
      httpRequest_mem_auth env ctx _ method uri payload req hreq
    have hcreds : (SetCredentials (SetBearerToken client (some tp)) u p).credentials =
        some ({ username := u, password := p, bearerToken := none } : credentials) := by
      unfold SetCredentials
      simp [hu, hp]
    rw [hcreds] at hA
    simp only [resolveAuth] at hA
    simp [hu, hp] at hA
    subst hA
    exact ⟨hauth, fun t hne => by rw [hauth] at hne; simp at hne⟩

/-- A token provider used by the C5 witness, always yielding the same token. -/
def tpW : TokenProvider := ⟨fun _ => .ok "tok123"⟩

/-- The client after `SetCredentials` then `SetBearerToken` (bearer wins). -/
def clientBearerLast : SchemaRegistryClient :=
  SetBearerToken (SetCredentials clientW "user" "pass") (some tpW)

/-- The client after `SetBearerToken` then `SetCredentials` (basic wins). -/
def clientBasicLast : SchemaRegistryClient :=
  SetCredentials (SetBearerToken clientW (some tpW)) "user" "pass"

/-- The request `clientBearerLast` issues for GET `/subjects`. -/
def reqBearerLast : Request :=
  builtRequest clientBearerLast "GET" "/subjects" none (some (.bearer "tok123"))

/-- The request `clientBasicLast` issues for GET `/subjects`. -/
def reqBasicLast : Request :=
  builtRequest clientBasicLast "GET" "/subjects" none (some (.basic "user" "pass"))

/-- Witness for C5 at concrete credentials: the request issued after
`SetCredentials` then `SetBearerToken` carries the Bearer header and no Basic
header, and in the reverse order it carries the Basic header and no Bearer. -/
theorem claimC5_witness :
    ((∃ t, reqBearerLast.auth = some (.bearer t)) ∧
      ∀ u' p', reqBearerLast.auth ≠ some (.basic u' p')) ∧
    (reqBasicLast.auth = some (.basic "user" "pass") ∧
      ∀ t, reqBasicLast.auth ≠ some (.bearer t)) := by
  have h := claimC5 envW Ctx.background clientW "user" "pass" tpW "GET" "/subjects" none
    (by decide) (by decide)
  refine ⟨h.1 reqBearerLast ?_, h.2 reqBasicLast ?_⟩
  · show reqBearerLast ∈
      (httpRequest envW Ctx.background clientBearerLast "GET" "/subjects" none).2
    rw [httpRequest_requests envW Ctx.background clientBearerLast "GET" "/subjects" none
      (some (.bearer "tok123")) rfl rfl]
    exact List.mem_singleton.mpr rfl
  · show reqBasicLast ∈
      (httpRequest envW Ctx.background clientBasicLast "GET" "/subjects" none).2
    rw [httpRequest_requests envW Ctx.background clientBasicLast "GET" "/subjects" none
      (some (.basic "user" "pass")) rfl rfl]
    exact List.mem_singleton.mpr rfl

theorem GetSchema_miss_requests (env : Env) (ctx : Ctx) (client : SchemaRegistryClient)
    (schemaID : Int) (a : Option AuthHeader)
    (hA : resolveAuth ctx client.credentials = Except.ok a)
    (hc : ctx.canceled = false)
    (hmiss : (if client.cachingEnabled then mapLookup client.idSchemaCache schemaID
              else none) = none) :
    (GetSchema env ctx client schemaID).2.2 =
      [builtRequest client "GET" (schemaByID schemaID) none a] := by
  have hreq := httpRequest_requests env ctx client "GET" (schemaByID schemaID) none a hA hc
  simp only [GetSchema, hmiss]
  rcases hh : httpRequest env ctx client "GET" (schemaByID schemaID) none with ⟨r, reqs⟩
  rw [hh] at hreq
  rcases r with e | respBody <;> simp only []
  · exact hreq
  · rcases unmarshalSchemaResponse respBody with e | sr <;> simp only []
    · exact hreq
    · rcases (if client.codecCreationEnabled then
                (env.newCodec sr.Schema).map some
              else Except.ok none : Except String (Option Codec)) with e | codec <;>
        simp only []
      · exact hreq
      · exact hreq

theorem getVersion_miss_requests (env : Env) (ctx : Ctx) (client : SchemaRegistryClient)
    (subject version : String) (a : Option AuthHeader)
    (hA : resolveAuth ctx client.credentials = Except.ok a)
    (hc : ctx.canceled = false)
    (hmiss : (if client.cachingEnabled &&
                  (version != "latest" || (version == "latest" && client.cacheLatest)) then
                mapLookup client.subjectSchemaCache (cacheKey subject version)
              else none) = none) :
    (getVersion env ctx client subject version).2.2 =
      [builtRequest client "GET" (subjectByVersion (queryEscape subject) version) none a] := by
  have hreq := httpRequest_requests env ctx client "GET"
    (subjectByVersion (queryEscape subject) version) none a hA hc
  simp only [getVersion, hmiss]
  rcases hh : httpRequest env ctx client "GET"
      (subjectByVersion (queryEscape subject) version) none with ⟨r, reqs⟩
  rw [hh] at hreq
  rcases r with e | respBody <;> simp only []
  · exact hreq
  · rcases unmarshalSchemaResponse respBody with e | sr <;> simp only []
    · exact hreq
    · rcases (if client.codecCreationEnabled then
                (env.newCodec sr.Schema).map some
              else Except.ok none : Except String (Option Codec)) with e | codec <;>
        simp only []
      · exact hreq
      · exact hreq

/-- C4: `ResetCache` leaves both cache maps empty, and a subsequent
`GetSchema(id)` and `GetSchemaByVersion(subject, v)` each perform a backend
fetch again. -/
theorem claimC4 (env : Env) (ctx : Ctx) (client : SchemaRegistryClient)
    (schemaID : Int) (subject : String) (version : Int) (a : Option AuthHeader)
    (hA : resolveAuth ctx client.credentials = Except.ok a)
    (hc : ctx.canceled = false) :
    (ResetCache client).idSchemaCache = [] ∧
    (ResetCache client).subjectSchemaCache = [] ∧
    (GetSchema env ctx (ResetCache client) schemaID).2.2.length = 1 ∧
    (GetSchemaByVersion env ctx (ResetCache client) subject version).2.2.length = 1 := by
  refine ⟨rfl, rfl, ?_, ?_⟩
  · rw [GetSchema_miss_requests env ctx (ResetCache client) schemaID a hA hc
      (by unfold ResetCache; simp [mapLookup])]
    rfl
  · rw [show GetSchemaByVersion env ctx (ResetCache client) subject version =
        getVersion env ctx (ResetCache client) subject (toString version) from rfl,
      getVersion_miss_requests env ctx (ResetCache client) subject (toString version) a hA hc
      (by unfold ResetCache; simp [mapLookup])]
    rfl

/-- The concrete client after a `GetSchemaByVersion` that populated both the
subject+version cache and the id cache. -/
def clientBothCaches : SchemaRegistryClient :=
  (GetSchemaByVersion envW Ctx.background clientW "test-subject" 3).2.1

/-- Witness for C4: starting from a client whose two caches are both
populated, resetting empties them and the two getters fetch once again. -/
theorem claimC4_witness :
    clientBothCaches.idSchemaCache.length = 1 ∧
    clientBothCaches.subjectSchemaCache.length = 1 ∧
    (ResetCache clientBothCaches).idSchemaCache = [] ∧
    (ResetCache clientBothCaches).subjectSchemaCache = [] ∧
    (GetSchema envW Ctx.background (ResetCache clientBothCaches) 7).2.2.length = 1 ∧
    (GetSchemaByVersion envW Ctx.background (ResetCache clientBothCaches)
        "test-subject" 3).2.2.length = 1 := by
  have h := claimC4 envW Ctx.background clientBothCaches 7 "test-subject" 3 none rfl rfl
  exact ⟨rfl, rfl, h.1, h.2.1, h.2.2.1, h.2.2.2⟩

theorem IsSchemaCompatible_requests (env : Env) (ctx : Ctx)
    (client : SchemaRegistryClient) (subject schema version : String)
    (schemaType : SchemaType) (references : List Reference) (a : Option AuthHeader)
    (hA : resolveAuth ctx client.credentials = Except.ok a)
    (hc : ctx.canceled = false) :
    (IsSchemaCompatible env ctx client subject schema version schemaType references).2 =
      [builtRequest client "POST"
        ("/compatibility/subjects/" ++ subject ++ "/versions/" ++ version)
        (some (.schemaReq { Schema := schema, SchemaType := schemaTypeString schemaType,
                            References := references })) a] := by
  have hreq := httpRequest_requests env ctx client "POST"
    ("/compatibility/subjects/" ++ subject ++ "/versions/" ++ version)
    (some (.schemaReq { Schema := schema, SchemaType := schemaTypeString schemaType,
                        References := references })) a hA hc
  unfold IsSchemaCompatible
  rcases hh : httpRequest env ctx client "POST"
      ("/compatibility/subjects/" ++ subject ++ "/versions/" ++ version)
      (some (.schemaReq { Schema := schema, SchemaType := schemaTypeString schemaType,
                          References := references })) with ⟨r, reqs⟩
  rw [hh] at hreq
  rcases r with e | respBody <;> simp only []
  · exact hreq
  · rcases unmarshalIsCompatibleResponse respBody with e | b <;> simp only []
    · exact hreq
    · exact hreq

/-- A backend answering every request with 200 and a compatibility body. -/
def envC : Env :=
  { doRequest := fun _ =>
      .ok { statusCode := 200, status := "200 OK", body := .compatResp true },
    newCodec := fun s => .ok ⟨s⟩ }

/-- C2 counterexample: with the unsupported schema type `"XML"`,
`IsSchemaCompatible` performs one HTTP request and returns the backend's
answer instead of failing with the validation error before any request. -/
theorem claimC2_counterexample :
    (IsSchemaCompatible envC Ctx.background clientW "sub" "sch" "latest" "XML" []).2.length
        = 1 ∧
    (IsSchemaCompatible envC Ctx.background clientW "sub" "sch" "latest" "XML" []).1 =
      Except.ok true := by
  constructor <;> rfl

/-- C2 (amended): for every schema type outside Avro/Json/Protobuf,
`CreateSchema` and `LookupSchema` return the validation error and perform no
HTTP request; `IsSchemaCompatible` does not validate the schema type and
performs its HTTP request regardless. -/
theorem claimC2 (env : Env) (ctx : Ctx) (client : SchemaRegistryClient)
    (subject schema version : String) (schemaType : SchemaType)
    (references : List Reference) (a : Option AuthHeader)
    (hbad : ¬(schemaType = Avro ∨ schemaType = Json ∨ schemaType = Protobuf))
    (hA : resolveAuth ctx client.credentials = Except.ok a)
    (hc : ctx.canceled = false) :
    CreateSchema env ctx client subject schema schemaType references =
      (Except.error
        (.errorf "invalid schema type. valid values are Avro, Json, or Protobuf"),
       client, []) ∧
    LookupSchema env ctx client subject schema schemaType references =
      (Except.error
        (.errorf "invalid schema type. valid values are Avro, Json, or Protobuf"),
       client, []) ∧
    (IsSchemaCompatible env ctx client subject schema version schemaType
        references).2.length = 1 := by
  have h1 : ¬(schemaType = Avro ∨ schemaType = Json) := fun h =>
    hbad (h.elim Or.inl (fun hj => Or.inr (Or.inl hj)))
  have h2 : ¬(schemaType = Protobuf) := fun h => hbad (Or.inr (Or.inr h))
  refine ⟨?_, ?_, ?_⟩
  · unfold CreateSchema
    rw [if_neg h1, if_neg h2]
  · unfold LookupSchema
    rw [if_neg h1, if_neg h2]
  · rw [IsSchemaCompatible_requests env ctx client subject schema version schemaType
      references a hA hc]
    rfl

/-- Witness for C2 (amended) at the type `"XML"` against a live backend. -/
theorem claimC2_witness :
    CreateSchema envC Ctx.background clientW "sub" "sch" "XML" [] =
      (Except.error
        (.errorf "invalid schema type. valid values are Avro, Json, or Protobuf"),
       clientW, []) ∧
    LookupSchema envC Ctx.background clientW "sub" "sch" "XML" [] =
      (Except.error
        (.errorf "invalid schema type. valid values are Avro, Json, or Protobuf"),
       clientW, []) ∧
    (IsSchemaCompatible envC Ctx.background clientW "sub" "sch" "latest" "XML"
        []).2.length = 1 :=
  claimC2 envC Ctx.background clientW "sub" "sch" "latest" "XML" [] none
    (by decide) rfl rfl

theorem createSchemaAfterSwitch_head (env : Env) (ctx : Ctx)
    (client : SchemaRegistryClient) (subject schema : String)
    (schemaType : SchemaType) (references : List Reference) (a : Option AuthHeader)
    (hA : resolveAuth ctx client.credentials = Except.ok a)
    (hc : ctx.canceled = false) :
    (createSchemaAfterSwitch env ctx client subject schema schemaType references).2.2.head? =
      some (builtRequest client "POST" (subjectVersions (queryEscape subject))
        (some (.schemaReq { Schema := schema, SchemaType := schemaTypeString schemaType,
                            References := references })) a) := by
  have hreq := httpRequest_requests env ctx client "POST"
    (subjectVersions (queryEscape subject))
    (some (.schemaReq { Schema := schema, SchemaType := schemaTypeString schemaType,
                        References := references })) a hA hc
  unfold createSchemaAfterSwitch
  rcases hh : httpRequest env ctx client "POST" (subjectVersions (queryEscape subject))
      (some (.schemaReq { Schema := schema, SchemaType := schemaTypeString schemaType,
                          References := references })) with ⟨r, reqs⟩
  rw [hh] at hreq
  have hr : reqs = [builtRequest client "POST" (subjectVersions (queryEscape subject))
      (some (.schemaReq { Schema := schema, SchemaType := schemaTypeString schemaType,
                          References := references })) a] := hreq
  subst hr
  rcases r with e | respBody <;> simp only []
  · rfl
  · rcases unmarshalSchemaResponse respBody with e | sr <;> simp only []
    · rfl
    · rcases GetSchema env ctx client sr.ID with ⟨r2, client2, reqs2⟩
      rcases r2 with e | newSchema <;> simp only []
      · rfl
      · rfl

theorem lookupSchemaAfterSwitch_requests (env : Env) (ctx : Ctx)
    (client : SchemaRegistryClient) (subject schema : String)
    (schemaType : SchemaType) (references : List Reference) (a : Option AuthHeader)
    (hA : resolveAuth ctx client.credentials = Except.ok a)
    (hc : ctx.canceled = false) :
    (lookupSchemaAfterSwitch env ctx client subject schema schemaType references).2.2 =
      [builtRequest client "POST" (subjectBySubject (queryEscape subject))
        (some (.schemaReq { Schema := schema, SchemaType := schemaTypeString schemaType,
                            References := references })) a] := by
  have hreq := httpRequest_requests env ctx client "POST"
    (subjectBySubject (queryEscape subject))
    (some (.schemaReq { Schema := schema, SchemaType := schemaTypeString schemaType,
                        References := references })) a hA hc
  unfold lookupSchemaAfterSwitch
  rcases hh : httpRequest env ctx client "POST" (subjectBySubject (queryEscape subject))
      (some (.schemaReq { Schema := schema, SchemaType := schemaTypeString schemaType,
                          References := references })) with ⟨r, reqs⟩
  rw [hh] at hreq
  rcases r with e | respBody <;> simp only []
  · exact hreq
  · rcases unmarshalSchemaResponse respBody with e | sr <;> simp only []
    · exact hreq
    · rcases (if client.codecCreationEnabled && (schemaType == Avro) then
                (env.newCodec sr.Schema).map some
              else Except.ok none : Except String (Option Codec)) with e | codec <;>
        simp only []
      · exact hreq
      · exact hreq

/-- C6: for Avro and Json, the schema text `CreateSchema` and `LookupSchema`
send in their POST body is the text with every `\r\n` or `\n` replaced by a
single space; for Protobuf the text is sent unmodified. -/
theorem claimC6 (env : Env) (ctx : Ctx) (client : SchemaRegistryClient)
    (subject text : String) (references : List Reference) (a : Option AuthHeader)
    (hA : resolveAuth ctx client.credentials = Except.ok a)
    (hc : ctx.canceled = false) :
    ((CreateSchema env ctx client subject text Avro references).2.2.head? =
      some (builtRequest client "POST" (subjectVersions (queryEscape subject))
        (some (.schemaReq { Schema := replaceLineEndings text,
                            SchemaType := schemaTypeString Avro,
                            References := references })) a)) ∧
    ((CreateSchema env ctx client subject text Json references).2.2.head? =
      some (builtRequest client "POST" (subjectVersions (queryEscape subject))
        (some (.schemaReq { Schema := replaceLineEndings text,
                            SchemaType := schemaTypeString Json,
                            References := references })) a)) ∧
    ((CreateSchema env ctx client subject text Protobuf references).2.2.head? =
      some (builtRequest client "POST" (subjectVersions (queryEscape subject))
        (some (.schemaReq { Schema := text,
                            SchemaType := schemaTypeString Protobuf,
                            References := references })) a)) ∧
    ((LookupSchema env ctx client subject text Avro references).2.2 =
      [builtRequest client "POST" (subjectBySubject (queryEscape subject))
        (some (.schemaReq { Schema := replaceLineEndings text,
                            SchemaType := schemaTypeString Avro,
                            References := references })) a]) ∧
    ((LookupSchema env ctx client subject text Json references).2.2 =
      [builtRequest client "POST" (subjectBySubject (queryEscape subject))
        (some (.schemaReq { Schema := replaceLineEndings text,
                            SchemaType := schemaTypeString Json,
                            References := references })) a]) ∧
    ((LookupSchema env ctx client subject text Protobuf references).2.2 =
      [builtRequest client "POST" (subjectBySubject (queryEscape subject))
        (some (.schemaReq { Schema := text,
                            SchemaType := schemaTypeString Protobuf,
                            References := references })) a]) := by
  refine ⟨?_, ?_, ?_, ?_, ?_, ?_⟩
  · rw [show CreateSchema env ctx client subject text Avro references =
        createSchemaAfterSwitch env ctx client subject (replaceLineEndings text)
          Avro references from by unfold CreateSchema; rw [if_pos (Or.inl rfl)]]
    exact createSchemaAfterSwitch_head env ctx client subject (replaceLineEndings text)
      Avro references a hA hc
  · rw [show CreateSchema env ctx client subject text Json references =
        createSchemaAfterSwitch env ctx client subject (replaceLineEndings text)
          Json references from by unfold CreateSchema; rw [if_pos (Or.inr rfl)]]
    exact createSchemaAfterSwitch_head env ctx client subject (replaceLineEndings text)
      Json references a hA hc
  · rw [show CreateSchema env ctx client subject text Protobuf references =
        createSchemaAfterSwitch env ctx client subject text Protobuf references from by
          unfold CreateSchema; rw [if_neg (by decide), if_pos rfl]]
    exact createSchemaAfterSwitch_head env ctx client subject text
      Protobuf references a hA hc
  · rw [show LookupSchema env ctx client subject text Avro references =
        lookupSchemaAfterSwitch env ctx client subject (replaceLineEndings text)
          Avro references from by unfold LookupSchema; rw [if_pos (Or.inl rfl)]]
    exact lookupSchemaAfterSwitch_requests env ctx client subject (replaceLineEndings text)
      Avro references a hA hc
  · rw [show LookupSchema env ctx client subject text Json references =
        lookupSchemaAfterSwitch env ctx client subject (replaceLineEndings text)
          Json references from by unfold LookupSchema; rw [if_pos (Or.inr rfl)]]
    exact lookupSchemaAfterSwitch_requests env ctx client subject (replaceLineEndings text)
      Json references a hA hc
  · rw [show LookupSchema env ctx client subject text Protobuf references =
        lookupSchemaAfterSwitch env ctx client subject text Protobuf references from by
          unfold LookupSchema; rw [if_neg (by decide), if_pos rfl]]
    exact lookupSchemaAfterSwitch_requests env ctx client subject text
      Protobuf references a hA hc

/-- Witness for C6 on the text `"line1\r\nline2\nline3"`: Avro sends it
with the line endings collapsed to spaces, Protobuf sends it untouched. -/
theorem claimC6_witness :
    ((CreateSchema envW Ctx.background clientW "sub" "line1\r\nline2\nline3"
        Avro []).2.2.head? =
      some (builtRequest clientW "POST" (subjectVersions (queryEscape "sub"))
        (some (.schemaReq { Schema := "line1 line2 line3",
                            SchemaType := schemaTypeString Avro,
                            References := [] })) none)) ∧
    ((CreateSchema envW Ctx.background clientW "sub" "line1\r\nline2\nline3"
        Protobuf []).2.2.head? =
      some (builtRequest clientW "POST" (subjectVersions (queryEscape "sub"))
        (some (.schemaReq { Schema := "line1\r\nline2\nline3",
                            SchemaType := schemaTypeString Protobuf,
                            References := [] })) none)) := by
  have h := claimC6 envW Ctx.background clientW "sub" "line1\r\nline2\nline3" [] none
    rfl rfl
  exact ⟨h.1, h.2.2.1⟩

/-- C7: a response with status outside 2xx makes `httpRequest` fail with
`createError resp` after its one dispatch; when the body decodes as
`{error_code, message}` the error carries exactly that code and message, and
when the body decodes as nothing known the error is the raw HTTP status line. -/
theorem claimC7 (env : Env) (ctx : Ctx) (client : SchemaRegistryClient)
    (method uri : String) (payload : Option ReqBody) (a : Option AuthHeader)
    (resp : Response)
    (hA : resolveAuth ctx client.credentials = Except.ok a)
    (hc : ctx.canceled = false)
    (hdo : env.doRequest (builtRequest client method uri payload a) = Except.ok resp)
    (hbad : resp.statusCode < 200 ∨ 299 < resp.statusCode) :
    httpRequest env ctx client method uri payload =
      (Except.error (createError resp), [builtRequest client method uri payload a]) ∧
    (∀ code msg, resp.body = .errorResp code msg →
      createError resp = .registryError code msg) ∧
    (∀ s, resp.body = .raw s → createError resp = .errorf resp.status) := by
  refine ⟨?_, ?_, ?_⟩
  · unfold httpRequest
    rw [hA]
    simp only [hc, Bool.false_eq_true, if_false]
    unfold builtRequest at hdo ⊢
    rw [hdo]
    simp [hbad]
  · intro code msg h
    unfold createError
    rw [h]
  · intro strBody h
    unfold createError
    rw [h]

/-- A backend answering every request with a structured 422 registry error. -/
def envE : Env :=
  { doRequest := fun _ =>
      .ok { statusCode := 422, status := "422 Unprocessable Entity",
            body := .errorResp 42201 "Invalid schema" },
    newCodec := fun s => .ok ⟨s⟩ }

/-- A backend answering every request with a 500 whose body decodes as
nothing known. -/
def envF : Env :=
  { doRequest := fun _ =>
      .ok { statusCode := 500, status := "500 Internal Server Error",
            body := .raw "gateway exploded" },
    newCodec := fun s => .ok ⟨s⟩ }

/-- Witness for C7: a 422 with `{error_code: 42201, message: "Invalid
schema"}` yields exactly that structured error, and a 500 with an undecodable
body falls back to the raw status line. -/
theorem claimC7_witness :
    httpRequest envE Ctx.background clientW "GET" "/subjects" none =
      (Except.error (.registryError 42201 "Invalid schema"),
       [builtRequest clientW "GET" "/subjects" none none]) ∧
    httpRequest envF Ctx.background clientW "GET" "/subjects" none =
      (Except.error (.errorf "500 Internal Server Error"),
       [builtRequest clientW "GET" "/subjects" none none]) := by
  have h1 := claimC7 envE Ctx.background clientW "GET" "/subjects" none none
    { statusCode := 422, status := "422 Unprocessable Entity",
      body := .errorResp 42201 "Invalid schema" } rfl rfl rfl (by decide)
  have h2 := claimC7 envF Ctx.background clientW "GET" "/subjects" none none
    { statusCode := 500, status := "500 Internal Server Error",
      body := .raw "gateway exploded" } rfl rfl rfl (by decide)
  exact ⟨h1.1, h2.1⟩

/-- The shared shape of `DeleteSubject` and `DeleteSubjectByVersion`: one
DELETE on `uri`, then on success and `permanent` a second DELETE on
`uri ++ "?permanent=true"` whose outcome is returned. -/
def deleteTwoStep (env : Env) (ctx : Ctx) (client : SchemaRegistryClient)
    (uri : String) (permanent : Bool) : Except SrError Unit × List Request :=
  match httpRequest env ctx client "DELETE" uri none with
  | (.error e, reqs) => (.error e, reqs)
  | (.ok _, reqs) =>
    if !permanent then (.ok (), reqs)
    else
      match httpRequest env ctx client "DELETE" (uri ++ "?permanent=true") none with
      | (.error e, reqs2) => (.error e, reqs ++ reqs2)
      | (.ok _, reqs2) => (.ok (), reqs ++ reqs2)

theorem DeleteSubject_eq_twoStep (env : Env) (ctx : Ctx) (client : SchemaRegistryClient)
    (subject : String) (permanent : Bool) :
    DeleteSubject env ctx client subject permanent =
      deleteTwoStep env ctx client ("/subjects/" ++ subject) permanent := rfl

theorem DeleteSubjectByVersion_eq_twoStep (env : Env) (ctx : Ctx)
    (client : SchemaRegistryClient) (subject : String) (version : Int)
    (permanent : Bool) :
    DeleteSubjectByVersion env ctx client subject version permanent =
      deleteTwoStep env ctx client (subjectByVersion subject (toString version))
        permanent := rfl

theorem deleteTwoStep_not_permanent (env : Env) (ctx : Ctx)
    (client : SchemaRegistryClient) (uri : String) (a : Option AuthHeader)
    (hA : resolveAuth ctx client.credentials = Except.ok a)
    (hc : ctx.canceled = false) :
    (deleteTwoStep env ctx client uri false).2.length = 1 := by
  have hreq := httpRequest_requests env ctx client "DELETE" uri none a hA hc
  unfold deleteTwoStep
  rcases hh : httpRequest env ctx client "DELETE" uri none with ⟨r, reqs⟩
  rw [hh] at hreq
  rcases r with e | b <;> simp only []
  · rw [show reqs = _ from hreq]
    rfl
  · rw [show reqs = _ from hreq]
    rfl

theorem deleteTwoStep_first_error (env : Env) (ctx : Ctx)
    (client : SchemaRegistryClient) (uri : String) (permanent : Bool)
    (e : SrError) (a : Option AuthHeader)
    (hA : resolveAuth ctx client.credentials = Except.ok a)
    (hc : ctx.canceled = false)
    (he : (httpRequest env ctx client "DELETE" uri none).1 = Except.error e) :
    (deleteTwoStep env ctx client uri permanent).1 = Except.error e ∧
    (deleteTwoStep env ctx client uri permanent).2.length = 1 := by
  have hreq := httpRequest_requests env ctx client "DELETE" uri none a hA hc
  unfold deleteTwoStep
  rcases hh : httpRequest env ctx client "DELETE" uri none with ⟨r, reqs⟩
  rw [hh] at hreq he
  rcases r with e' | b
  · simp only at he
    simp only [Except.error.injEq] at he
    subst he
    exact ⟨rfl, by rw [show reqs = _ from hreq]; rfl⟩
  · exact absurd he (by simp)

theorem deleteTwoStep_permanent_ok (env : Env) (ctx : Ctx)
    (client : SchemaRegistryClient) (uri : String) (b : RespBody)
    (a : Option AuthHeader)
    (hA : resolveAuth ctx client.credentials = Except.ok a)
    (hc : ctx.canceled = false)
    (hb : (httpRequest env ctx client "DELETE" uri none).1 = Except.ok b) :
    (deleteTwoStep env ctx client uri true).2 =
      (httpRequest env ctx client "DELETE" uri none).2 ++
        (httpRequest env ctx client "DELETE" (uri ++ "?permanent=true") none).2 ∧
    (deleteTwoStep env ctx client uri true).2.length = 2 ∧
    (deleteTwoStep env ctx client uri true).1 =
      (httpRequest env ctx client "DELETE" (uri ++ "?permanent=true") none).1.map
        (fun _ => ()) := by
  have hreq := httpRequest_requests env ctx client "DELETE" uri none a hA hc
  have hreq2 := httpRequest_requests env ctx client "DELETE" (uri ++ "?permanent=true")
    none a hA hc
  unfold deleteTwoStep
  rcases hh : httpRequest env ctx client "DELETE" uri none with ⟨r, reqs⟩
  rw [hh] at hreq hb
  rcases r with e | b'
  · exact absurd hb (by simp)
  · simp only [Bool.not_true, if_false]
    rcases hh2 : httpRequest env ctx client "DELETE" (uri ++ "?permanent=true") none
      with ⟨r2, reqs2⟩
    rw [hh2] at hreq2
    rcases r2 with e | b2 <;> simp only []
    · refine ⟨rfl, ?_, rfl⟩
      rw [show reqs = _ from hreq, show reqs2 = _ from hreq2]
      rfl
    · refine ⟨rfl, ?_, rfl⟩
      rw [show reqs = _ from hreq, show reqs2 = _ from hreq2]
      rfl

/-- C8: each delete operation issues exactly one DELETE when `permanent` is
false or when the first DELETE fails (the failure is returned); it issues the
second DELETE with `?permanent=true` exactly when `permanent` is set and the
first DELETE succeeded, and then returns the second call's outcome. -/
theorem claimC8 (env : Env) (ctx : Ctx) (client : SchemaRegistryClient)
    (subject : String) (version : Int) (permanent : Bool) (a : Option AuthHeader)
    (hA : resolveAuth ctx client.credentials = Except.ok a)
    (hc : ctx.canceled = false) :
    ((DeleteSubject env ctx client subject false).2.length = 1) ∧
    (∀ e, (httpRequest env ctx client "DELETE" ("/subjects/" ++ subject) none).1 =
        Except.error e →
      (DeleteSubject env ctx client subject permanent).1 = Except.error e ∧
      (DeleteSubject env ctx client subject permanent).2.length = 1) ∧
    (∀ b, (httpRequest env ctx client "DELETE" ("/subjects/" ++ subject) none).1 =
        Except.ok b →
      (DeleteSubject env ctx client subject true).2 =
        (httpRequest env ctx client "DELETE" ("/subjects/" ++ subject) none).2 ++
          (httpRequest env ctx client "DELETE"
            ("/subjects/" ++ subject ++ "?permanent=true") none).2 ∧
      (DeleteSubject env ctx client subject true).2.length = 2 ∧
      (DeleteSubject env ctx client subject true).1 =
        (httpRequest env ctx client "DELETE"
          ("/subjects/" ++ subject ++ "?permanent=true") none).1.map (fun _ => ())) ∧
    ((DeleteSubjectByVersion env ctx client subject version false).2.length = 1) ∧
    (∀ e, (httpRequest env ctx client "DELETE"
        (subjectByVersion subject (toString version)) none).1 = Except.error e →
      (DeleteSubjectByVersion env ctx client subject version permanent).1 =
        Except.error e ∧
      (DeleteSubjectByVersion env ctx client subject version permanent).2.length = 1) ∧
    (∀ b, (httpRequest env ctx client "DELETE"
        (subjectByVersion subject (toString version)) none).1 = Except.ok b →
      (DeleteSubjectByVersion env ctx client subject version true).2 =
        (httpRequest env ctx client "DELETE"
          (subjectByVersion subject (toString version)) none).2 ++
          (httpRequest env ctx client "DELETE"
            (subjectByVersion subject (toString version) ++ "?permanent=true") none).2 ∧
      (DeleteSubjectByVersion env ctx client subject version true).2.length = 2 ∧
      (DeleteSubjectByVersion env ctx client subject version true).1 =
        (httpRequest env ctx client "DELETE"
          (subjectByVersion subject (toString version) ++ "?permanent=true")
          none).1.map (fun _ => ())) := by
  refine ⟨?_, ?_, ?_, ?_, ?_, ?_⟩
  · rw [DeleteSubject_eq_twoStep]
    exact deleteTwoStep_not_permanent env ctx client _ a hA hc
  · intro e he
    rw [DeleteSubject_eq_twoStep]
    exact deleteTwoStep_first_error env ctx client _ permanent e a hA hc he
  · intro b hb
    rw [DeleteSubject_eq_twoStep]
    exact deleteTwoStep_permanent_ok env ctx client _ b a hA hc hb
  · rw [DeleteSubjectByVersion_eq_twoStep]
    exact deleteTwoStep_not_permanent env ctx client _ a hA hc
  · intro e he
    rw [DeleteSubjectByVersion_eq_twoStep]
    exact deleteTwoStep_first_error env ctx client _ permanent e a hA hc he
  · intro b hb
    rw [DeleteSubjectByVersion_eq_twoStep]
    exact deleteTwoStep_permanent_ok env ctx client _ b a hA hc hb

/-- Witness for C8 at concrete backends: a succeeding backend gives one DELETE
without `permanent`, two with it; a 422 backend gives one DELETE returning the
registry error. -/
theorem claimC8_witness :
    (DeleteSubject envW Ctx.background clientW "sub" false).2.length = 1 ∧
    (DeleteSubject envW Ctx.background clientW "sub" true).2.length = 2 ∧
    (DeleteSubjectByVersion envW Ctx.background clientW "sub" 3 true).2.length = 2 ∧
    (DeleteSubject envE Ctx.background clientW "sub" true).1 =
      Except.error (.registryError 42201 "Invalid schema") ∧
    (DeleteSubject envE Ctx.background clientW "sub" true).2.length = 1 := by
  have hW := claimC8 envW Ctx.background clientW "sub" 3 true none rfl rfl
  have hE := claimC8 envE Ctx.background clientW "sub" 3 true none rfl rfl
  have he := hE.2.1 (.registryError 42201 "Invalid schema") rfl
  exact ⟨hW.1, (hW.2.2.1 (.schemaResp respW) rfl).2.1,
    (hW.2.2.2.2.2 (.schemaResp respW) rfl).2.1, he.1, he.2⟩

theorem getVersion_frame (env : Env) (ctx : Ctx) (client : SchemaRegistryClient)
    (subject version : String) :
    ((getVersion env ctx client subject version).2.1).schemaRegistryURL =
        client.schemaRegistryURL ∧
    ((getVersion env ctx client subject version).2.1).credentials =
        client.credentials ∧
    ((getVersion env ctx client subject version).2.1).cachingEnabled =
        client.cachingEnabled ∧
    ((getVersion env ctx client subject version).2.1).cacheLatest =
        client.cacheLatest ∧
    ((getVersion env ctx client subject version).2.1).codecCreationEnabled =
        client.codecCreationEnabled := by
  unfold getVersion
  repeat' split
  all_goals exact ⟨rfl, rfl, rfl, rfl, rfl⟩

/-- C3: with caching enabled and `cacheLatest` false (the default), every
`GetLatestSchema(subject)` call performs a backend fetch — two calls fetch
twice; with `cacheLatest` true, the first (missing) call fetches once and
every subsequent call is served from the subject cache with no fetch. -/
theorem claimC3 (env : Env) (ctx : Ctx) (client : SchemaRegistryClient)
    (subject : String) (a : Option AuthHeader)
    (hA : resolveAuth ctx client.credentials = Except.ok a)
    (hc : ctx.canceled = false)
    (hce : client.cachingEnabled = true) :
    (client.cacheLatest = false →
      (GetLatestSchema env ctx client subject).2.2.length = 1 ∧
      (GetLatestSchema env ctx (GetLatestSchema env ctx client subject).2.1
          subject).2.2.length = 1) ∧
    (client.cacheLatest = true →
      mapLookup client.subjectSchemaCache (cacheKey subject "latest") = none →
      ((GetLatestSchema env ctx client subject).2.2.length = 1 ∧
       ∀ s, (GetLatestSchema env ctx client subject).1 = Except.ok s →
         ∀ (env' : Env) (ctx' : Ctx),
           GetLatestSchema env' ctx' (GetLatestSchema env ctx client subject).2.1
               subject =
             (Except.ok s, (GetLatestSchema env ctx client subject).2.1, []))) := by
  constructor
  · intro hcl
    obtain ⟨hf1, hf2, hf3, hf4, hf5⟩ := getVersion_frame env ctx client subject "latest"
    have hA' : resolveAuth ctx
        ((getVersion env ctx client subject "latest").2.1).credentials =
        Except.ok a := by rw [hf2]; exact hA
    constructor
    · show (getVersion env ctx client subject "latest").2.2.length = 1
      rw [getVersion_miss_requests env ctx client subject "latest" a hA hc
        (by simp [hcl])]
      rfl
    · show (getVersion env ctx
          (getVersion env ctx client subject "latest").2.1 subject "latest").2.2.length = 1
      rw [getVersion_miss_requests env ctx
        ((getVersion env ctx client subject "latest").2.1) subject "latest" a hA' hc
        (by simp [hf4, hcl])]
      rfl
  · intro hcl hmiss
    constructor
    · show (getVersion env ctx client subject "latest").2.2.length = 1
      rw [getVersion_miss_requests env ctx client subject "latest" a hA hc
        (by simp [hce, hcl, hmiss])]
      rfl
    · intro s hok env' ctx'
      have hb1 : ((("latest" : String) != "latest") ||
          (("latest" : String) == "latest" && client.cacheLatest)) = true := by
        rw [hcl]
        decide
      have hcond : (client.cachingEnabled && ((("latest" : String) != "latest") ||
          (("latest" : String) == "latest" && client.cacheLatest))) = true := by
        rw [hce, hb1]
        rfl
      simp only [GetLatestSchema] at hok ⊢
      rcases hG : getVersion env ctx client subject "latest" with ⟨r, st', reqs⟩
      rw [hG] at hok
      simp only at hok
      subst hok
      simp only [getVersion, hcond, if_true, hmiss] at hG
      rcases hh : httpRequest env ctx client "GET"
          (subjectByVersion (queryEscape subject) "latest") none with ⟨r0, reqs0⟩
      rw [hh] at hG
      rcases r0 with e | respBody
      · simp only [Prod.mk.injEq] at hG
        exact absurd hG.1.symm (by simp)
      · simp only at hG
        rcases hu : unmarshalSchemaResponse respBody with e | sr <;> rw [hu] at hG
        · simp only [Prod.mk.injEq] at hG
          exact absurd hG.1.symm (by simp)
        · simp only at hG
          rcases hcod : (if client.codecCreationEnabled then
                    (env.newCodec sr.Schema).map some
                  else Except.ok none : Except String (Option Codec)) with e | codec <;>
            rw [hcod] at hG
          · simp only [Prod.mk.injEq] at hG
            exact absurd hG.1.symm (by simp)
          · simp only [hce, if_true, hb1, Prod.mk.injEq] at hG
            obtain ⟨h1, h2, h3⟩ := hG
            have hval := Except.ok.inj h1
            subst h2
            subst hval
            simp [getVersion, mapLookup_mapInsert_self, hce, hcl]

/-- Witness for C3: on the concrete backend, two `GetLatestSchema` calls with
the default flags fetch once each, and with `cacheLatest` on the second call
returns the cached schema with no fetch. -/
theorem claimC3_witness :
    ((GetLatestSchema envW Ctx.background clientW "sub").2.2.length = 1 ∧
     (GetLatestSchema envW Ctx.background
        (GetLatestSchema envW Ctx.background clientW "sub").2.1 "sub").2.2.length = 1) ∧
    ((GetLatestSchema envW Ctx.background (CacheLatest clientW true) "sub").2.2.length = 1 ∧
     GetLatestSchema envW Ctx.background
        (GetLatestSchema envW Ctx.background (CacheLatest clientW true) "sub").2.1 "sub" =
       (Except.ok schemaW,
        (GetLatestSchema envW Ctx.background (CacheLatest clientW true) "sub").2.1, [])) := by
  constructor
  · exact (claimC3 envW Ctx.background clientW "sub" none rfl rfl rfl).1 rfl
  · have h := (claimC3 envW Ctx.background (CacheLatest clientW true) "sub" none
      rfl rfl rfl).2 rfl rfl
    exact ⟨h.1, h.2 schemaW rfl envW Ctx.background⟩

/-- C9: inside `httpRequest` the concurrency-gate acquisition is performed
with `context.Background()` instead of the caller's context, so a canceled
caller context does not interrupt the wait for a gate slot: the acquisition
step succeeds where a cancellable acquisition would return the cancellation
error.  This contradicts the claim, which requires prompt cancellation at all
three suspension points. -/
theorem claimC9 :
    semAcquire (gateAcquireContext ⟨true⟩) = Except.ok () ∧
    semAcquire ⟨true⟩ = Except.error .ctxCanceled :=
  ⟨rfl, rfl⟩

end Srclient
